import Mathlib

set_option linter.unusedVariables false

/-!
Shallow embedding of src/experimental/hip/stream_command_buffer.c.

The command buffer records each call by immediately translating it into
zero or more asynchronous stream operations.  We embed the recording
state (`iree_hal_hip_stream_command_buffer_t`) as a Lean structure and
each vtable entry point as a function on that state.  Device pointers
are modelled as `Option Nat` (with `none` the null pointer), host and
pattern bytes as `List Nat`, and the stream as the list of emitted
operations.  Array accesses that would be out of bounds in the C code
(undefined behaviour) are modelled by `Option`-valued functions that
return `none` at the faulting access.
-/

/-- Status codes returned by the command buffer entry points, carrying the
same diagnostic payloads the C code formats into the status message
(for resource exhaustion: the set index, the requested count and the
maximal count). -/
inductive iree_status_t where
  | ok : iree_status_t
  | unimplemented : String → iree_status_t
  | resource_exhausted : Nat → Nat → Nat → iree_status_t
  | internal_error : String → iree_status_t
deriving DecidableEq, Repr

/-- Modelled from the spec: the buffer resolver maps a buffer to its device
base address and its byte offset within the allocation
(`iree_hal_hip_buffer_device_pointer` of the allocated buffer, and
`iree_hal_buffer_byte_offset`); the buffer type itself lives outside the
translated sources. -/
structure iree_hal_buffer_t where
  device_base : Nat
  byte_offset : Nat
deriving DecidableEq, Repr

/-- Opaque resources retained by the resource set. -/
inductive HalResource where
  | bufferResource : iree_hal_buffer_t → HalResource
  | executableResource : Nat → HalResource
deriving DecidableEq, Repr

/-- Modelled from the spec: `iree_hal_resource_set_insert` adds a resource to
the deduplicating retention list (the resource set implementation is not
part of the translated sources). -/
def iree_hal_resource_set_insert (rs : List HalResource) (r : HalResource) :
    List HalResource :=
  if r ∈ rs then rs else rs ++ [r]

/-- One pointer-sized payload slot of the kernel-argument storage.  A slot
either still holds uninitialized arena memory, holds a device pointer
copied from a descriptor set, or holds a 32-bit push-constant value
narrow-written into the pointer-width slot. -/
inductive KernelArgSlot where
  | uninit : KernelArgSlot
  | devicePtr : Option Nat → KernelArgSlot
  | word32 : Nat → KernelArgSlot
deriving DecidableEq, Repr

/-- The kernel arguments handed to the launch: the argument-pointer array
(represented by the index of the payload slot each argument pointer
targets) and the payload array itself. -/
structure KernelArguments where
  arg_ptrs : List Nat
  payload : List KernelArgSlot
deriving DecidableEq, Repr

/-- Source of an asynchronous host-to-device copy: either a snapshot of the
bytes placed in arena-backed scratch memory at recording time, or a raw
host pointer that the device reads at transfer-execution time. -/
inductive HtoDSource where
  | arenaBytes : List Nat → HtoDSource
  | hostPointer : Nat → HtoDSource
deriving DecidableEq, Repr

/-- Asynchronous operations emitted on the HIP stream. -/
inductive StreamOp where
  | fill8 : Nat → Nat → Nat → StreamOp
  | fill16 : Nat → Nat → Nat → StreamOp
  | fill32 : Nat → Nat → Nat → StreamOp
  | memcpyHtoD : Nat → HtoDSource → Nat → StreamOp
  | memcpyDtoD : Nat → Nat → Nat → StreamOp
  | launchKernel : Nat → Nat × Nat × Nat → Nat × Nat × Nat → Nat →
      KernelArguments → StreamOp
deriving DecidableEq, Repr

/-- Modelled from the spec: the fixed capacity constants
(`IREE_HAL_HIP_MAX_*`) are declared in the pipeline layout header, which
is not among the translated sources; the spec only requires them to be
fixed maxima, and the values here mirror the backend defaults. -/
def IREE_HAL_HIP_MAX_PUSH_CONSTANT_COUNT : Nat := 64

/-- Modelled from the spec: fixed maximal number of descriptor sets. -/
def IREE_HAL_HIP_MAX_DESCRIPTOR_SET_COUNT : Nat := 4

/-- Modelled from the spec: fixed maximal number of bindings per set. -/
def IREE_HAL_HIP_MAX_DESCRIPTOR_SET_BINDING_COUNT : Nat := 16

/-- Size of a device pointer (`sizeof(void*)`, `sizeof(hipDeviceptr_t)`) on
the 64-bit targets the backend runs on. -/
def hip_pointer_size : Nat := 8

/-- Recording state of `iree_hal_hip_stream_command_buffer_t`: the
push-constant bank (32-bit words), the per-set resolved binding
addresses, the resource set, the arena (tracked as the sizes of the
allocations made in the current cycle), whether the arena was given a
block pool, and the list of stream operations emitted so far. -/
structure iree_hal_hip_stream_command_buffer_t where
  mode : Nat
  command_categories : Nat
  has_block_pool : Bool
  push_constants : List Nat
  descriptor_sets : List (List (Option Nat))
  resource_set : List HalResource
  arena_allocs : List Nat
  stream_ops : List StreamOp
deriving DecidableEq, Repr

/-- Creation (`iree_hal_hip_stream_command_buffer_create`): a positive
binding capacity is rejected as unimplemented before anything is
allocated, leaving the out pointer null; otherwise the state is
zero-initialized (`iree_allocator_malloc` zeroes the allocation). -/
def iree_hal_hip_stream_command_buffer_create (mode command_categories
    binding_capacity : Nat) (has_block_pool : Bool) :
    Option iree_hal_hip_stream_command_buffer_t × iree_status_t :=
  if binding_capacity > 0 then
    (none, .unimplemented "indirect command buffers not yet implemented")
  else
    (some { mode := mode
            command_categories := command_categories
            has_block_pool := has_block_pool
            push_constants := List.replicate IREE_HAL_HIP_MAX_PUSH_CONSTANT_COUNT 0
            descriptor_sets := List.replicate IREE_HAL_HIP_MAX_DESCRIPTOR_SET_COUNT
              (List.replicate IREE_HAL_HIP_MAX_DESCRIPTOR_SET_BINDING_COUNT none)
            resource_set := []
            arena_allocs := []
            stream_ops := [] }, .ok)

/-- Modelled from the spec: the host execution stage bit of
`iree_hal_execution_stage_t` (declared in the HAL headers, outside the
translated sources); only its identity as a dedicated bit matters. -/
def IREE_HAL_EXECUTION_STAGE_HOST : Nat := 32

/-- Modelled from the spec: the default (empty) barrier flag value. -/
def IREE_HAL_EXECUTION_BARRIER_FLAG_NONE : Nat := 0

/-- Bit test used by the barrier checks (`iree_any_bit_set`). -/
def iree_any_bit_set (a b : Nat) : Bool := a &&& b != 0

/-- Execution barrier: rejects host-involved stages and non-default flags,
otherwise a pure no-op (single-stream ordering already serializes). -/
def iree_hal_hip_stream_command_buffer_execution_barrier
    (cb : iree_hal_hip_stream_command_buffer_t)
    (source_stage_mask target_stage_mask flags : Nat)
    (memory_barrier_count buffer_barrier_count : Nat) :
    iree_hal_hip_stream_command_buffer_t × iree_status_t :=
  if iree_any_bit_set source_stage_mask IREE_HAL_EXECUTION_STAGE_HOST ||
      iree_any_bit_set target_stage_mask IREE_HAL_EXECUTION_STAGE_HOST then
    (cb, .unimplemented "barrier involving host not yet supported")
  else if flags != IREE_HAL_EXECUTION_BARRIER_FLAG_NONE then
    (cb, .unimplemented "non-zero barrier flag not yet supported")
  else
    (cb, .ok)

/-- Event signal stub: always unimplemented, no side effect. -/
def iree_hal_hip_stream_command_buffer_signal_event
    (cb : iree_hal_hip_stream_command_buffer_t) (event : Nat)
    (source_stage_mask : Nat) :
    iree_hal_hip_stream_command_buffer_t × iree_status_t :=
  (cb, .unimplemented "event not yet supported")

/-- Event reset stub: always unimplemented, no side effect. -/
def iree_hal_hip_stream_command_buffer_reset_event
    (cb : iree_hal_hip_stream_command_buffer_t) (event : Nat)
    (source_stage_mask : Nat) :
    iree_hal_hip_stream_command_buffer_t × iree_status_t :=
  (cb, .unimplemented "event not yet supported")

/-- Event wait stub: always unimplemented, no side effect. -/
def iree_hal_hip_stream_command_buffer_wait_events
    (cb : iree_hal_hip_stream_command_buffer_t) (events : List Nat)
    (source_stage_mask target_stage_mask : Nat)
    (memory_barrier_count buffer_barrier_count : Nat) :
    iree_hal_hip_stream_command_buffer_t × iree_status_t :=
  (cb, .unimplemented "event not yet supported")

/-- Collective stub: always unimplemented, no side effect. -/
def iree_hal_hip_stream_command_buffer_collective
    (cb : iree_hal_hip_stream_command_buffer_t) (channel op param : Nat)
    (send_binding recv_binding : Option iree_hal_buffer_t)
    (element_count : Nat) :
    iree_hal_hip_stream_command_buffer_t × iree_status_t :=
  (cb, .unimplemented "collectives not yet supported")

/-- Indirect dispatch stub: always unimplemented, no side effect. -/
def iree_hal_hip_stream_command_buffer_dispatch_indirect
    (cb : iree_hal_hip_stream_command_buffer_t) (executable entry_point : Nat)
    (workgroups_buffer : iree_hal_buffer_t) (workgroups_offset : Nat) :
    iree_hal_hip_stream_command_buffer_t × iree_status_t :=
  (cb, .unimplemented "need hip implementation of dispatch indirect")

/-- Nested command buffer stub: always unimplemented, no side effect. -/
def iree_hal_hip_stream_command_buffer_execute_commands
    (cb : iree_hal_hip_stream_command_buffer_t)
    (commands binding_table : Nat) :
    iree_hal_hip_stream_command_buffer_t × iree_status_t :=
  (cb, .unimplemented "indirect command buffers not yet implemented")

/-- Bounds-checked single store: `some (l.set i a)` when `i` is in bounds,
`none` when the corresponding C store would be out of bounds (undefined
behaviour). -/
def setAt {α : Type} (l : List α) (i : Nat) (a : α) : Option (List α) :=
  if i < l.length then some (l.set i a) else none

/-- Sequential stores of `xs` at consecutive indices starting at `base`,
faulting if any store is out of bounds. -/
def writeRegion {α : Type} : List α → Nat → List α → Option (List α)
  | l, _, [] => some l
  | l, base, x :: xs =>
    match setAt l base x with
    | none => none
    | some l' => writeRegion l' (base + 1) xs

/-- Little-endian reinterpretation of four bytes as one 32-bit word, as the
C code's `((uint32_t*)values)[i]` does on the little-endian targets the
backend runs on. -/
def word32OfBytes (b0 b1 b2 b3 : Nat) : Nat :=
  b0 % 256 + 256 * (b1 % 256) + 65536 * (b2 % 256) + 16777216 * (b3 % 256)

/-- Reinterpret a byte list as `length / 4` little-endian 32-bit words,
dropping any trailing bytes short of a word. -/
def bytesToWords : List Nat → List Nat
  | b0 :: b1 :: b2 :: b3 :: rest => word32OfBytes b0 b1 b2 b3 :: bytesToWords rest
  | _ => []

/-- Push constants (`iree_hal_hip_stream_command_buffer_push_constants`):
writes `values_length / 4` words into the bank starting at word index
`offset / 4`; a store past the fixed bank is undefined behaviour (`none`). -/
def iree_hal_hip_stream_command_buffer_push_constants
    (cb : iree_hal_hip_stream_command_buffer_t) (pipeline_layout : Nat)
    (offset : Nat) (values : List Nat) :
    Option iree_hal_hip_stream_command_buffer_t :=
  let constant_base_index := offset / 4
  match writeRegion cb.push_constants constant_base_index (bytesToWords values) with
  | none => none
  | some bank => some { cb with push_constants := bank }

/-- Read one little-endian byte / 16-bit / 32-bit value from the start of the
pattern bytes, as the C code's typed loads of `pattern` do. -/
def patternByteAt (pattern : List Nat) (i : Nat) : Nat := pattern.getD i 0 % 256

/-- Fill buffer (`iree_hal_hip_stream_command_buffer_fill_buffer`): resolves
the destination address, requires a 1/2/4-byte pattern, and emits one
asynchronous memset of `length / pattern_length` elements.  The division
`length / pattern_length` executes before the width switch, so a zero
pattern width is division-by-zero undefined behaviour (`none`); only
afterwards does the switch route any other unsupported width to the
internal error. -/
def iree_hal_hip_stream_command_buffer_fill_buffer
    (cb : iree_hal_hip_stream_command_buffer_t)
    (target_buffer : iree_hal_buffer_t) (target_offset length : Nat)
    (pattern : List Nat) (pattern_length : Nat) :
    Option (iree_hal_hip_stream_command_buffer_t × iree_status_t) :=
  let dst := target_buffer.device_base + target_buffer.byte_offset + target_offset
  if pattern_length = 0 then none
  else
    let num_elements := length / pattern_length
    match pattern_length with
    | 4 =>
      some ({ cb with stream_ops := cb.stream_ops ++
          [.fill32 dst (patternByteAt pattern 0 + 256 * patternByteAt pattern 1 +
            65536 * patternByteAt pattern 2 + 16777216 * patternByteAt pattern 3)
            num_elements] }, .ok)
    | 2 =>
      some ({ cb with stream_ops := cb.stream_ops ++
          [.fill16 dst (patternByteAt pattern 0 + 256 * patternByteAt pattern 1)
            num_elements] }, .ok)
    | 1 =>
      some ({ cb with stream_ops := cb.stream_ops ++
          [.fill8 dst (patternByteAt pattern 0) num_elements] }, .ok)
    | _ => some (cb, .internal_error "unsupported fill pattern length")

/-- Host memory contents at a point in time: address to byte. -/
def HostMem : Type := Nat → Nat

/-- Update buffer (`iree_hal_hip_stream_command_buffer_update_buffer`): when
the arena has a block pool, the source bytes are first copied into arena
scratch storage on the calling thread and the asynchronous copy reads
that snapshot; otherwise the asynchronous copy reads the caller's host
memory when the stream reaches it. -/
def iree_hal_hip_stream_command_buffer_update_buffer
    (cb : iree_hal_hip_stream_command_buffer_t) (mem : HostMem)
    (source_buffer source_offset : Nat) (target_buffer : iree_hal_buffer_t)
    (target_offset length : Nat) :
    iree_hal_hip_stream_command_buffer_t :=
  let src := source_buffer + source_offset
  let dst := target_buffer.device_base + target_buffer.byte_offset + target_offset
  if cb.has_block_pool then
    let storage := (List.range length).map (fun i => mem (src + i))
    { cb with
      arena_allocs := cb.arena_allocs ++ [length]
      stream_ops := cb.stream_ops ++ [.memcpyHtoD dst (.arenaBytes storage) length] }
  else
    { cb with
      stream_ops := cb.stream_ops ++ [.memcpyHtoD dst (.hostPointer src) length] }

/-- Bytes a host-to-device copy operation writes to its destination when the
stream executes it, given the host memory contents at execution time:
an arena snapshot is immune to later host mutation, a raw host pointer
is read at execution time. -/
def transferredBytes (mem_at_execution : HostMem) : StreamOp → Option (List Nat)
  | .memcpyHtoD _ (.arenaBytes storage) _ => some storage
  | .memcpyHtoD _ (.hostPointer p) length =>
    some ((List.range length).map (fun i => mem_at_execution (p + i)))
  | _ => none

/-- Copy buffer (`iree_hal_hip_stream_command_buffer_copy_buffer`): resolves
both device addresses and emits one asynchronous device-to-device copy. -/
def iree_hal_hip_stream_command_buffer_copy_buffer
    (cb : iree_hal_hip_stream_command_buffer_t)
    (source_buffer : iree_hal_buffer_t) (source_offset : Nat)
    (target_buffer : iree_hal_buffer_t) (target_offset length : Nat) :
    iree_hal_hip_stream_command_buffer_t :=
  let dst := target_buffer.device_base + target_buffer.byte_offset + target_offset
  let src := source_buffer.device_base + source_buffer.byte_offset + source_offset
  { cb with stream_ops := cb.stream_ops ++ [.memcpyDtoD dst src length] }

/-- One entry of the binding array passed to push_descriptor_set
(`iree_hal_descriptor_set_binding_t`). -/
structure iree_hal_descriptor_set_binding_t where
  binding : Nat
  buffer : Option iree_hal_buffer_t
  offset : Nat
  length : Nat
deriving DecidableEq, Repr

/-- Resolved device address a binding stores: null for a null buffer, else
buffer base + buffer byte offset + binding byte offset. -/
def resolveBinding (b : iree_hal_descriptor_set_binding_t) : Option Nat :=
  match b.buffer with
  | none => none
  | some buf => some (buf.device_base + buf.byte_offset + b.offset)

/-- Loop body of push_descriptor_set: for each binding, retain a non-null
buffer in the resource set and store the resolved (or null) address at
the binding's index in the set's binding array; an out-of-range binding
index is an out-of-bounds store (`none`). -/
def pushBindingsLoop : List HalResource → List (Option Nat) →
    List iree_hal_descriptor_set_binding_t →
    Option (List HalResource × List (Option Nat))
  | rs, row, [] => some (rs, row)
  | rs, row, b :: bs =>
    let rs' :=
      match b.buffer with
      | none => rs
      | some buf => iree_hal_resource_set_insert rs (.bufferResource buf)
    match setAt row b.binding (resolveBinding b) with
    | none => none
    | some row' => pushBindingsLoop rs' row' bs

/-- Push descriptor set
(`iree_hal_hip_stream_command_buffer_push_descriptor_set`): a binding
count beyond the fixed per-set maximum is rejected with a
resource-exhaustion error before any mutation; otherwise the set's
binding array is fetched (an out-of-range set index is an out-of-bounds
access, `none`) and each named binding index is overwritten. -/
def iree_hal_hip_stream_command_buffer_push_descriptor_set
    (cb : iree_hal_hip_stream_command_buffer_t) (pipeline_layout set : Nat)
    (bindings : List iree_hal_descriptor_set_binding_t) :
    Option (iree_hal_hip_stream_command_buffer_t × iree_status_t) :=
  if bindings.length > IREE_HAL_HIP_MAX_DESCRIPTOR_SET_BINDING_COUNT then
    some (cb, .resource_exhausted set bindings.length
      IREE_HAL_HIP_MAX_DESCRIPTOR_SET_BINDING_COUNT)
  else
    match cb.descriptor_sets[set]? with
    | none => none
    | some current_bindings =>
      match pushBindingsLoop cb.resource_set current_bindings bindings with
      | none => none
      | some (rs, row) =>
        some ({ cb with
                resource_set := rs
                descriptor_sets := cb.descriptor_sets.set set row }, .ok)

/-- Modelled from the spec: one descriptor set layout, exposing its binding
count (`iree_hal_hip_descriptor_set_layout_binding_count`); the layout
objects live outside the translated sources. -/
structure iree_hal_hip_descriptor_set_layout_t where
  binding_count : Nat
deriving DecidableEq, Repr

/-- Modelled from the spec: a pipeline layout is the list of its descriptor
set layouts plus the number of push constants. -/
structure iree_hal_hip_pipeline_layout_t where
  set_layouts : List iree_hal_hip_descriptor_set_layout_t
  push_constant_count : Nat
deriving DecidableEq, Repr

/-- Total binding count of a prefix of set layouts. -/
def sumBindingCounts (sls : List iree_hal_hip_descriptor_set_layout_t) : Nat :=
  (sls.map (fun sl => sl.binding_count)).sum

/-- Modelled from the spec: the layout accessor
`iree_hal_hip_pipeline_layout_base_binding_index` gives set `i`'s
flattened base offset, the sum of the binding counts of the sets before
it. -/
def iree_hal_hip_pipeline_layout_base_binding_index
    (layout : iree_hal_hip_pipeline_layout_t) (i : Nat) : Nat :=
  sumBindingCounts (layout.set_layouts.take i)

/-- Modelled from the spec: the dispatch layout summary
(`iree_hal_hip_dispatch_layout_t`) derived from a pipeline layout:
total binding count across sets, push constant count and base index
(push constants are appended after all bindings), and the set count. -/
structure iree_hal_hip_dispatch_layout_t where
  total_binding_count : Nat
  push_constant_count : Nat
  push_constant_base_index : Nat
  set_layout_count : Nat
deriving DecidableEq, Repr

/-- Modelled from the spec: `iree_hal_hip_pipeline_layout_dispatch_layout`. -/
def iree_hal_hip_pipeline_layout_dispatch_layout
    (layout : iree_hal_hip_pipeline_layout_t) :
    iree_hal_hip_dispatch_layout_t :=
  { total_binding_count := sumBindingCounts layout.set_layouts
    push_constant_count := layout.push_constant_count
    push_constant_base_index := sumBindingCounts layout.set_layouts
    set_layout_count := layout.set_layouts.length }

/-- Kernel metadata the executable resolver returns for an entry point
(`iree_hal_hip_kernel_info_t`): native function handle, 3D block
dimensions, shared memory size and the pipeline layout. -/
structure iree_hal_hip_kernel_info_t where
  function : Nat
  block_size : Nat × Nat × Nat
  shared_memory_size : Nat
  layout : iree_hal_hip_pipeline_layout_t
deriving DecidableEq, Repr

/-- Dispatch loop copying each descriptor set's resolved addresses into the
payload array at the set's flattened base offset, starting at set index
`i` (the C `for (i = 0; i < set_count; ++i)` loop with its `memcpy`).
Reading a set beyond the fixed set array, reading more bindings than the
set's array holds, or writing past the payload is an out-of-bounds
access (`none`). -/
def copySetsFrom (cb_sets : List (List (Option Nat)))
    (layout : iree_hal_hip_pipeline_layout_t) :
    Nat → List KernelArgSlot → Option (List KernelArgSlot)
  | i, payload =>
    if h : i < layout.set_layouts.length then
      let binding_count := (layout.set_layouts.get ⟨i, h⟩).binding_count
      let index := iree_hal_hip_pipeline_layout_base_binding_index layout i
      match cb_sets[i]? with
      | none => none
      | some row =>
        if binding_count ≤ row.length then
          match writeRegion payload index
              ((row.take binding_count).map KernelArgSlot.devicePtr) with
          | none => none
          | some payload' => copySetsFrom cb_sets layout (i + 1) payload'
        else none
    else some payload
termination_by i _ => layout.set_layouts.length - i

/-- Dispatch loop appending the push constants: each 32-bit bank word `i` is
narrow-written into the pointer-width payload slot `base_index + i` (the
C `*((uint32_t*)params_ptr[base_index + i]) = push_constants[i]`).
Reading past the fixed bank or writing past the payload is an
out-of-bounds access (`none`). -/
def writePushConstantsFrom (bank : List Nat) (base_index count : Nat) :
    Nat → List KernelArgSlot → Option (List KernelArgSlot)
  | i, payload =>
    if i < count then
      match bank[i]? with
      | none => none
      | some v =>
        match setAt payload (base_index + i) (KernelArgSlot.word32 v) with
        | none => none
        | some payload' => writePushConstantsFrom bank base_index count (i + 1) payload'
    else some payload
termination_by i _ => count - i

/-- Dispatch (`iree_hal_hip_stream_command_buffer_dispatch`): retains the
executable, allocates one arena region for the two parallel
kernel-argument arrays (`kernel_params_length * 2` bytes), points every
argument-pointer slot at its payload slot, copies each set's resolved
addresses to the set's flattened base offset, narrow-writes the push
constants after them, and launches the kernel on the stream.  The
executable resolver (`..._entry_point_kernel_info`) is an external
collaborator, so the kernel metadata it yields is taken as an input. -/
def iree_hal_hip_stream_command_buffer_dispatch
    (cb : iree_hal_hip_stream_command_buffer_t) (executable : Nat)
    (kernel_info : iree_hal_hip_kernel_info_t)
    (workgroup_x workgroup_y workgroup_z : Nat) :
    Option iree_hal_hip_stream_command_buffer_t :=
  let rs := iree_hal_resource_set_insert cb.resource_set
    (.executableResource executable)
  let dispatch_layout :=
    iree_hal_hip_pipeline_layout_dispatch_layout kernel_info.layout
  let descriptor_count := dispatch_layout.total_binding_count
  let push_constant_count := dispatch_layout.push_constant_count
  let kernel_params_count := descriptor_count + push_constant_count
  let kernel_params_length := kernel_params_count * hip_pointer_size
  let total_size := kernel_params_length * 2
  let params_ptr := List.range kernel_params_count
  let payload0 := List.replicate kernel_params_count KernelArgSlot.uninit
  match copySetsFrom cb.descriptor_sets kernel_info.layout 0 payload0 with
  | none => none
  | some payload1 =>
    match writePushConstantsFrom cb.push_constants
        dispatch_layout.push_constant_base_index push_constant_count 0 payload1 with
    | none => none
    | some payload2 =>
      some { cb with
             resource_set := rs
             arena_allocs := cb.arena_allocs ++ [total_size]
             stream_ops := cb.stream_ops ++
               [.launchKernel kernel_info.function
                 (workgroup_x, workgroup_y, workgroup_z)
                 kernel_info.block_size kernel_info.shared_memory_size
                 { arg_ptrs := params_ptr, payload := payload2 }] }

/-- The zero-initialized command buffer state that creation produces, used
as a sample state. -/
def emptyStreamCommandBuffer : iree_hal_hip_stream_command_buffer_t :=
  { mode := 0
    command_categories := 0
    has_block_pool := true
    push_constants := List.replicate IREE_HAL_HIP_MAX_PUSH_CONSTANT_COUNT 0
    descriptor_sets := List.replicate IREE_HAL_HIP_MAX_DESCRIPTOR_SET_COUNT
      (List.replicate IREE_HAL_HIP_MAX_DESCRIPTOR_SET_BINDING_COUNT none)
    resource_set := []
    arena_allocs := []
    stream_ops := [] }

/-- Resulting binding array of one push_descriptor_set call: each named
binding index is overwritten with its resolved address, in call order. -/
def applyBindings (row : List (Option Nat))
    (bindings : List iree_hal_descriptor_set_binding_t) : List (Option Nat) :=
  bindings.foldl (fun r b => r.set b.binding (resolveBinding b)) row

/-- Resulting resource set of one push_descriptor_set call: every non-null
bound buffer is inserted, in call order. -/
def retainBindings (rs : List HalResource)
    (bindings : List iree_hal_descriptor_set_binding_t) : List HalResource :=
  bindings.foldl
    (fun rs b =>
      match b.buffer with
      | none => rs
      | some buf => iree_hal_resource_set_insert rs (.bufferResource buf)) rs

/-- Payload contents produced by the dispatch set-copy loop: for each set in
order, the first `binding_count` resolved addresses of that set's binding
array, concatenated in flattened layout order. -/
def flattenedBindings : List iree_hal_hip_descriptor_set_layout_t →
    List (List (Option Nat)) → List (Option Nat)
  | [], _ => []
  | _ :: _, [] => []
  | sl :: sls, row :: rows => row.take sl.binding_count ++ flattenedBindings sls rows

/-- The command buffer state of the spec scenario: one set whose first two
bindings are resolved to addresses A and B, and push-constant word 0 set
to 42, over the zero-initialized state. -/
def scenarioCommandBuffer (A B : Nat) : iree_hal_hip_stream_command_buffer_t :=
  { emptyStreamCommandBuffer with
    push_constants := 42 :: List.replicate 63 0
    descriptor_sets :=
      (some A :: some B :: List.replicate 14 none) ::
        List.replicate 3 (List.replicate 16 none) }

/-- The scenario layout: 2 bindings plus 1 push constant at base offset 2. -/
def scenarioLayout : iree_hal_hip_pipeline_layout_t :=
  { set_layouts := [{ binding_count := 2 }], push_constant_count := 1 }

theorem writeRegion_spec {α : Type} (xs : List α) : ∀ (l : List α) (base : Nat),
    base + xs.length ≤ l.length →
    writeRegion l base xs = some (l.take base ++ xs ++ l.drop (base + xs.length)) := by
  induction xs with
  | nil =>
    intro l base h
    simp [writeRegion]
  | cons x xs ih =>
    intro l base h
    have hlt : base < l.length := by simp at h; omega
    have hset : l.set base x = l.take base ++ x :: l.drop (base + 1) :=
      List.set_eq_take_cons_drop x hlt
    rw [writeRegion, setAt, if_pos hlt]
    dsimp only
    rw [ih (l.set base x) (base + 1) (by simp; simp at h; omega)]
    congr 1
    rw [hset]
    rw [List.take_append_eq_append_take, List.drop_append_eq_append_drop]
    have hlen : (l.take base).length = base := List.length_take_of_le (le_of_lt hlt)
    rw [hlen]
    rw [List.take_of_length_le (by omega : (l.take base).length ≤ base + 1)]
    rw [List.drop_eq_nil_of_le (by omega : (l.take base).length ≤ base + 1 + xs.length)]
    simp
    have h1 : base + 1 + xs.length - base = xs.length + 1 := by omega
    rw [h1, List.drop_succ_cons, List.drop_drop]
    congr 1
    omega

theorem setAt_spec {α : Type} (l : List α) (i : Nat) (a : α) (h : i < l.length) :
    setAt l i a = some (l.take i ++ a :: l.drop (i + 1)) := by
  rw [setAt, if_pos h]
  congr 1
  exact List.set_eq_take_cons_drop a h

theorem mem_resource_set_insert (rs : List HalResource) (r r' : HalResource)
    (h : r ∈ rs) : r ∈ iree_hal_resource_set_insert rs r' := by
  unfold iree_hal_resource_set_insert
  split
  · exact h
  · exact List.mem_append_left _ h

theorem self_mem_resource_set_insert (rs : List HalResource) (r : HalResource) :
    r ∈ iree_hal_resource_set_insert rs r := by
  unfold iree_hal_resource_set_insert
  split
  · assumption
  · exact List.mem_append_right _ (List.mem_singleton.mpr rfl)

theorem pushBindingsLoop_spec
    (bindings : List iree_hal_descriptor_set_binding_t) :
    ∀ (rs : List HalResource) (row : List (Option Nat)),
    (∀ b ∈ bindings, b.binding < row.length) →
    pushBindingsLoop rs row bindings =
      some (retainBindings rs bindings, applyBindings row bindings) := by
  induction bindings with
  | nil => intro rs row h; rfl
  | cons b bs ih =>
    intro rs row h
    have hb : b.binding < row.length := h b (List.mem_cons_self b bs)
    have hbs : ∀ x ∈ bs, x.binding < (row.set b.binding (resolveBinding b)).length := by
      intro x hx
      rw [List.length_set]
      exact h x (List.mem_cons_of_mem b hx)
    rw [pushBindingsLoop, setAt, if_pos hb]
    dsimp only
    rw [ih _ _ hbs]
    rfl

theorem applyBindings_length (bindings : List iree_hal_descriptor_set_binding_t) :
    ∀ row : List (Option Nat), (applyBindings row bindings).length = row.length := by
  induction bindings with
  | nil => intro row; rfl
  | cons b bs ih =>
    intro row
    show (applyBindings (row.set b.binding (resolveBinding b)) bs).length = _
    rw [ih, List.length_set]

theorem applyBindings_getElem_not_mem
    (bindings : List iree_hal_descriptor_set_binding_t) :
    ∀ (row : List (Option Nat)) (j : Nat),
    j ∉ bindings.map (fun b => b.binding) →
    (applyBindings row bindings)[j]? = row[j]? := by
  induction bindings with
  | nil => intro row j h; rfl
  | cons b bs ih =>
    intro row j h
    rw [List.map_cons, List.mem_cons] at h
    push_neg at h
    show (applyBindings (row.set b.binding (resolveBinding b)) bs)[j]? = _
    rw [ih _ _ h.2, List.getElem?_set_ne (fun he => h.1 he.symm)]

theorem applyBindings_getElem_mem
    (bindings : List iree_hal_descriptor_set_binding_t) :
    ∀ (row : List (Option Nat)),
    (bindings.map (fun b => b.binding)).Nodup →
    (∀ b ∈ bindings, b.binding < row.length) →
    ∀ b ∈ bindings, (applyBindings row bindings)[b.binding]? =
      some (resolveBinding b) := by
  induction bindings with
  | nil => intro row _ _ b hb; cases hb
  | cons b0 bs ih =>
    intro row hnd hlen b hb
    rw [List.map_cons, List.nodup_cons] at hnd
    rcases List.mem_cons.mp hb with hb0 | hbs
    · subst hb0
      show (applyBindings (row.set b.binding (resolveBinding b)) bs)[b.binding]? = _
      rw [applyBindings_getElem_not_mem bs _ _ hnd.1]
      exact List.getElem?_set_eq_of_lt _ (hlen b (List.mem_cons_self _ _))
    · show (applyBindings (row.set b0.binding (resolveBinding b0)) bs)[b.binding]? = _
      exact ih _ hnd.2
        (fun x hx => by rw [List.length_set]; exact hlen x (List.mem_cons_of_mem _ hx))
        b hbs

theorem retainBindings_mono (bindings : List iree_hal_descriptor_set_binding_t) :
    ∀ (rs : List HalResource) (r : HalResource), r ∈ rs →
    r ∈ retainBindings rs bindings := by
  induction bindings with
  | nil => intro rs r h; exact h
  | cons b bs ih =>
    intro rs r h
    show r ∈ retainBindings (match b.buffer with
      | none => rs
      | some buf => iree_hal_resource_set_insert rs (.bufferResource buf)) bs
    cases hbuf : b.buffer with
    | none => exact ih rs r h
    | some buf => exact ih _ r (mem_resource_set_insert rs r _ h)

theorem retainBindings_mem_of_bound
    (bindings : List iree_hal_descriptor_set_binding_t) :
    ∀ (rs : List HalResource), ∀ b ∈ bindings, ∀ buf : iree_hal_buffer_t,
    b.buffer = some buf →
    HalResource.bufferResource buf ∈ retainBindings rs bindings := by
  induction bindings with
  | nil => intro rs b hb; cases hb
  | cons b0 bs ih =>
    intro rs b hb buf hbuf
    rcases List.mem_cons.mp hb with hb0 | hbs
    · subst hb0
      show HalResource.bufferResource buf ∈ retainBindings (match b.buffer with
        | none => rs
        | some buf => iree_hal_resource_set_insert rs (.bufferResource buf)) bs
      rw [hbuf]
      exact retainBindings_mono bs _ _ (self_mem_resource_set_insert rs _)
    · exact ih _ b hbs buf hbuf

theorem bytesToWords_length : ∀ values : List Nat,
    (bytesToWords values).length = values.length / 4
  | [] => rfl
  | [_] => by show (0 : Nat) = 1 / 4; rfl
  | [_, _] => by show (0 : Nat) = 2 / 4; rfl
  | [_, _, _] => by show (0 : Nat) = 3 / 4; rfl
  | b0 :: b1 :: b2 :: b3 :: rest => by
    rw [bytesToWords, List.length_cons, bytesToWords_length rest]
    show rest.length / 4 + 1 = (rest.length + 1 + 1 + 1 + 1) / 4
    omega

theorem push_constants_spec (cb : iree_hal_hip_stream_command_buffer_t)
    (pipeline_layout offset : Nat) (values : List Nat)
    (h : offset / 4 + values.length / 4 ≤ cb.push_constants.length) :
    iree_hal_hip_stream_command_buffer_push_constants cb pipeline_layout offset
        values =
      some { cb with push_constants :=
        cb.push_constants.take (offset / 4) ++ bytesToWords values ++
          cb.push_constants.drop (offset / 4 + values.length / 4) } := by
  unfold iree_hal_hip_stream_command_buffer_push_constants
  dsimp only
  rw [writeRegion_spec _ _ _ (by rw [bytesToWords_length]; omega)]
  dsimp only
  rw [bytesToWords_length]

theorem sumBindingCounts_cons (sl : iree_hal_hip_descriptor_set_layout_t)
    (sls : List iree_hal_hip_descriptor_set_layout_t) :
    sumBindingCounts (sl :: sls) = sl.binding_count + sumBindingCounts sls := by
  unfold sumBindingCounts
  simp

theorem base_binding_index_succ (layout : iree_hal_hip_pipeline_layout_t)
    (i : Nat) (h : i < layout.set_layouts.length) :
    iree_hal_hip_pipeline_layout_base_binding_index layout (i + 1) =
      iree_hal_hip_pipeline_layout_base_binding_index layout i +
        layout.set_layouts[i].binding_count := by
  unfold iree_hal_hip_pipeline_layout_base_binding_index sumBindingCounts
  rw [List.map_take, List.map_take, List.sum_take_succ _ i (by simp [h])]
  simp

theorem sumBindingCounts_drop (layout : iree_hal_hip_pipeline_layout_t)
    (i : Nat) (h : i < layout.set_layouts.length) :
    sumBindingCounts (layout.set_layouts.drop i) =
      layout.set_layouts[i].binding_count +
        sumBindingCounts (layout.set_layouts.drop (i + 1)) := by
  unfold sumBindingCounts
  rw [List.map_drop, List.drop_eq_getElem_cons (by simp [h]), List.sum_cons]
  simp [List.map_drop]

theorem flattenedBindings_length (sls : List iree_hal_hip_descriptor_set_layout_t) :
    ∀ rows : List (List (Option Nat)), sls.length ≤ rows.length →
    (∀ p ∈ sls.zip rows, p.1.binding_count ≤ p.2.length) →
    (flattenedBindings sls rows).length = sumBindingCounts sls := by
  induction sls with
  | nil => intro rows _ _; cases rows <;> rfl
  | cons sl sls ih =>
    intro rows hlen hle
    cases rows with
    | nil => simp at hlen
    | cons row rows =>
      have h1 : sl.binding_count ≤ row.length :=
        hle (sl, row) (by simp [List.zip_cons_cons])
      show (row.take sl.binding_count ++ flattenedBindings sls rows).length = _
      rw [List.length_append, List.length_take, ih rows (by simpa using hlen)
        (fun p hp => hle p (by simp [List.zip_cons_cons, hp]))]
      show min sl.binding_count row.length + sumBindingCounts sls = _
      unfold sumBindingCounts
      simp [Nat.min_eq_left h1]

theorem copySetsFrom_go (cb_sets : List (List (Option Nat)))
    (layout : iree_hal_hip_pipeline_layout_t)
    (hsets : layout.set_layouts.length ≤ cb_sets.length)
    (hrows : ∀ p ∈ layout.set_layouts.zip cb_sets, p.1.binding_count ≤ p.2.length) :
    ∀ (n i : Nat), layout.set_layouts.length - i = n →
    ∀ (done : List KernelArgSlot) (k : Nat),
    done.length = iree_hal_hip_pipeline_layout_base_binding_index layout i →
    sumBindingCounts (layout.set_layouts.drop i) ≤ k →
    copySetsFrom cb_sets layout i (done ++ List.replicate k KernelArgSlot.uninit) =
      some (done ++
        (flattenedBindings (layout.set_layouts.drop i) (cb_sets.drop i)).map
          KernelArgSlot.devicePtr ++
        List.replicate (k - sumBindingCounts (layout.set_layouts.drop i))
          KernelArgSlot.uninit) := by
  intro n
  induction n with
  | zero =>
    intro i hi done k hdone hk
    have hge : ¬ i < layout.set_layouts.length := by omega
    rw [copySetsFrom, dif_neg hge]
    rw [List.drop_eq_nil_of_le (by omega)]
    cases hd : cb_sets.drop i <;> simp [flattenedBindings, sumBindingCounts]
  | succ n ih =>
    intro i hi done k hdone hk
    have hlt : i < layout.set_layouts.length := by omega
    have hltc : i < cb_sets.length := by omega
    have hbc : layout.set_layouts[i].binding_count ≤ cb_sets[i].length := by
      have hz : (layout.set_layouts[i], cb_sets[i]) ∈ layout.set_layouts.zip cb_sets := by
        have hzl : i < (layout.set_layouts.zip cb_sets).length := by simp; omega
        have hze : (layout.set_layouts.zip cb_sets)[i] =
            (layout.set_layouts[i], cb_sets[i]) := List.getElem_zip
        rw [← hze]
        exact List.getElem_mem hzl
      exact hrows _ hz
    rw [copySetsFrom, dif_pos hlt]
    rw [List.getElem?_eq_getElem hltc]
    dsimp only
    simp only [List.get_eq_getElem]
    rw [if_pos hbc]
    have hsum := sumBindingCounts_drop layout i hlt
    have hxslen : ((cb_sets[i].take layout.set_layouts[i].binding_count).map
        KernelArgSlot.devicePtr).length = layout.set_layouts[i].binding_count := by
      simp [Nat.min_eq_left hbc]
    rw [writeRegion_spec _ _ _ (by
      rw [hxslen, List.length_append, List.length_replicate, hdone]
      omega)]
    rw [hxslen, hdone.symm]
    rw [List.take_left, List.drop_append, List.drop_replicate]
    dsimp only
    rw [show done ++ (cb_sets[i].take layout.set_layouts[i].binding_count).map
        KernelArgSlot.devicePtr ++
        List.replicate (k - layout.set_layouts[i].binding_count) KernelArgSlot.uninit =
      (done ++ (cb_sets[i].take layout.set_layouts[i].binding_count).map
        KernelArgSlot.devicePtr) ++
        List.replicate (k - layout.set_layouts[i].binding_count) KernelArgSlot.uninit by
      simp]
    rw [ih (i + 1) (by omega) _ _
      (by
        rw [List.length_append, hxslen, hdone]
        exact (base_binding_index_succ layout i hlt).symm)
      (by omega)]
    rw [List.drop_eq_getElem_cons hlt, List.drop_eq_getElem_cons hltc]
    show _ = some (done ++ (cb_sets[i].take layout.set_layouts[i].binding_count ++
      flattenedBindings (layout.set_layouts.drop (i+1)) (cb_sets.drop (i+1))).map
        KernelArgSlot.devicePtr ++ _)
    rw [List.map_append]
    congr 2
    · simp
    · rw [sumBindingCounts_cons]
      congr 1
      omega

theorem writePushConstantsFrom_go (bank : List Nat) (base_index count : Nat)
    (hcount : count ≤ bank.length) :
    ∀ (n i : Nat), count - i = n →
    ∀ (done : List KernelArgSlot) (k : Nat),
    done.length = base_index + i →
    count - i ≤ k →
    writePushConstantsFrom bank base_index count i
        (done ++ List.replicate k KernelArgSlot.uninit) =
      some (done ++ ((bank.take count).drop i).map KernelArgSlot.word32 ++
        List.replicate (k - (count - i)) KernelArgSlot.uninit) := by
  intro n
  induction n with
  | zero =>
    intro i hi done k hdone hk
    have hge : ¬ i < count := by omega
    rw [writePushConstantsFrom, if_neg hge]
    rw [List.drop_eq_nil_of_le (by simp; omega)]
    simp
    omega
  | succ n ih =>
    intro i hi done k hdone hk
    have hlt : i < count := by omega
    have hib : i < bank.length := by omega
    rw [writePushConstantsFrom, if_pos hlt]
    rw [List.getElem?_eq_getElem hib]
    dsimp only
    rw [setAt_spec _ _ _ (by simp [hdone]; omega)]
    dsimp only
    rw [← hdone, List.take_left]
    rw [show done.length + 1 = done.length + 1 from rfl]
    rw [List.drop_append 1, List.drop_replicate]
    rw [show done ++ KernelArgSlot.word32 bank[i] :: List.replicate (k - 1) KernelArgSlot.uninit =
      (done ++ [KernelArgSlot.word32 bank[i]]) ++ List.replicate (k - 1) KernelArgSlot.uninit by
      simp]
    rw [ih (i + 1) (by omega) _ _ (by simp [hdone]; omega) (by omega)]
    rw [List.drop_eq_getElem_cons (l := bank.take count) (n := i)
      (by simp; omega)]
    rw [List.getElem_take]
    show _ = some (done ++ (KernelArgSlot.word32 bank[i] ::
      ((bank.take count).drop (i + 1)).map KernelArgSlot.word32) ++ _)
    rw [show (k - 1 - (count - (i + 1))) = k - (count - i) by omega]
    simp

theorem dispatch_spec
    (cb : iree_hal_hip_stream_command_buffer_t) (executable : Nat)
    (kernel_info : iree_hal_hip_kernel_info_t) (wx wy wz : Nat)
    (hsets : kernel_info.layout.set_layouts.length ≤ cb.descriptor_sets.length)
    (hrows : ∀ p ∈ kernel_info.layout.set_layouts.zip cb.descriptor_sets,
      p.1.binding_count ≤ p.2.length)
    (hpc : kernel_info.layout.push_constant_count ≤ cb.push_constants.length) :
    iree_hal_hip_stream_command_buffer_dispatch cb executable kernel_info wx wy wz =
      some { cb with
        resource_set := iree_hal_resource_set_insert cb.resource_set
          (.executableResource executable)
        arena_allocs := cb.arena_allocs ++
          [(sumBindingCounts kernel_info.layout.set_layouts +
            kernel_info.layout.push_constant_count) * hip_pointer_size * 2]
        stream_ops := cb.stream_ops ++
          [.launchKernel kernel_info.function (wx, wy, wz)
            kernel_info.block_size kernel_info.shared_memory_size
            { arg_ptrs := List.range (sumBindingCounts kernel_info.layout.set_layouts +
                kernel_info.layout.push_constant_count)
              payload := (flattenedBindings kernel_info.layout.set_layouts
                  cb.descriptor_sets).map KernelArgSlot.devicePtr ++
                (cb.push_constants.take kernel_info.layout.push_constant_count).map
                  KernelArgSlot.word32 }] } := by
  unfold iree_hal_hip_stream_command_buffer_dispatch
  dsimp only [iree_hal_hip_pipeline_layout_dispatch_layout]
  have h1 := copySetsFrom_go cb.descriptor_sets kernel_info.layout hsets hrows
    kernel_info.layout.set_layouts.length 0 (by omega) []
    (sumBindingCounts kernel_info.layout.set_layouts +
      kernel_info.layout.push_constant_count) rfl (by simp)
  rw [List.nil_append, List.drop_zero, List.drop_zero, List.nil_append] at h1
  rw [show sumBindingCounts kernel_info.layout.set_layouts +
      kernel_info.layout.push_constant_count -
      sumBindingCounts kernel_info.layout.set_layouts =
    kernel_info.layout.push_constant_count by omega] at h1
  rw [h1]
  dsimp only
  have hflen : ((flattenedBindings kernel_info.layout.set_layouts
      cb.descriptor_sets).map KernelArgSlot.devicePtr).length =
      sumBindingCounts kernel_info.layout.set_layouts := by
    rw [List.length_map]
    exact flattenedBindings_length _ _ hsets hrows
  have h2 := writePushConstantsFrom_go cb.push_constants
    (sumBindingCounts kernel_info.layout.set_layouts)
    kernel_info.layout.push_constant_count hpc
    kernel_info.layout.push_constant_count 0 (by omega)
    ((flattenedBindings kernel_info.layout.set_layouts
      cb.descriptor_sets).map KernelArgSlot.devicePtr)
    kernel_info.layout.push_constant_count (by omega) (by omega)
  rw [List.drop_zero, Nat.sub_zero, Nat.sub_self, List.replicate_zero,
    List.append_nil] at h2
  rw [h2]

/-- Claim C1: every dispatch packs its kernel arguments into one arena region
sized for two parallel arrays of `total_binding_count + push_constant_count`
pointer-sized slots, with every argument-pointer slot i aimed at payload
slot i, each descriptor set's resolved addresses copied to that set's
flattened base offset, and the push-constant words narrow-written into the
pointer-width payload slots starting at the layout's push-constant base
index.  In particular, for one set with two bindings resolved to A and B,
push-constant word 0 = 42, and a layout of 2 bindings plus 1 push constant
at base offset 2, the payload array is [A, B, 42] in slot order with the
argument-pointer array pointing at those three slots. -/
theorem C1_dispatch_argument_packing :
    (∀ (cb : iree_hal_hip_stream_command_buffer_t) (executable : Nat)
      (kernel_info : iree_hal_hip_kernel_info_t) (wx wy wz : Nat),
      kernel_info.layout.set_layouts.length ≤ cb.descriptor_sets.length →
      (∀ p ∈ kernel_info.layout.set_layouts.zip cb.descriptor_sets,
        p.1.binding_count ≤ p.2.length) →
      kernel_info.layout.push_constant_count ≤ cb.push_constants.length →
      iree_hal_hip_stream_command_buffer_dispatch cb executable kernel_info wx wy wz =
        some { cb with
          resource_set := iree_hal_resource_set_insert cb.resource_set
            (.executableResource executable)
          arena_allocs := cb.arena_allocs ++
            [(sumBindingCounts kernel_info.layout.set_layouts +
              kernel_info.layout.push_constant_count) * hip_pointer_size * 2]
          stream_ops := cb.stream_ops ++
            [.launchKernel kernel_info.function (wx, wy, wz)
              kernel_info.block_size kernel_info.shared_memory_size
              { arg_ptrs := List.range (sumBindingCounts kernel_info.layout.set_layouts +
                  kernel_info.layout.push_constant_count)
                payload := (flattenedBindings kernel_info.layout.set_layouts
                    cb.descriptor_sets).map KernelArgSlot.devicePtr ++
                  (cb.push_constants.take kernel_info.layout.push_constant_count).map
                    KernelArgSlot.word32 }] }) ∧
    (∀ (A B executable fn shmem wx wy wz bx by_ bz : Nat),
      iree_hal_hip_stream_command_buffer_dispatch (scenarioCommandBuffer A B)
          executable
          { function := fn, block_size := (bx, by_, bz),
            shared_memory_size := shmem, layout := scenarioLayout } wx wy wz =
        some { scenarioCommandBuffer A B with
          resource_set := [.executableResource executable]
          arena_allocs := [3 * hip_pointer_size * 2]
          stream_ops :=
            [.launchKernel fn (wx, wy, wz) (bx, by_, bz) shmem
              { arg_ptrs := [0, 1, 2]
                payload := [.devicePtr (some A), .devicePtr (some B),
                  .word32 42] }] }) := by
  constructor
  · intro cb executable kernel_info wx wy wz hsets hrows hpc
    exact dispatch_spec cb executable kernel_info wx wy wz hsets hrows hpc
  · intro A B executable fn shmem wx wy wz bx by_ bz
    rw [dispatch_spec _ _ _ _ _ _
      (by simp [scenarioLayout, scenarioCommandBuffer, emptyStreamCommandBuffer])
      (by
        intro p hp
        simp [scenarioLayout, scenarioCommandBuffer, emptyStreamCommandBuffer] at hp
        rw [hp]
        simp)
      (by simp [scenarioLayout, scenarioCommandBuffer])]
    rfl

/-- Witness for claim C1 at A = 100, B = 200. -/
theorem C1_dispatch_argument_packing_witness :
    iree_hal_hip_stream_command_buffer_dispatch (scenarioCommandBuffer 100 200)
        3 { function := 7, block_size := (8, 1, 1),
            shared_memory_size := 0, layout := scenarioLayout } 5 6 7 =
      some { scenarioCommandBuffer 100 200 with
        resource_set := [.executableResource 3]
        arena_allocs := [48]
        stream_ops :=
          [.launchKernel 7 (5, 6, 7) (8, 1, 1) 0
            { arg_ptrs := [0, 1, 2]
              payload := [.devicePtr (some 100), .devicePtr (some 200),
                .word32 42] }] } :=
  C1_dispatch_argument_packing.2 100 200 3 7 0 5 6 7 8 1 1

/-- Claim C2: update_buffer copies the source bytes into arena-backed
scratch synchronously on the calling thread before issuing the
asynchronous host-to-device transfer from that scratch region, so the
bytes the transfer eventually writes are the call-time snapshot,
irrespective of the host memory contents when the stream reaches the
copy (stated for a command buffer whose arena has a block pool, which
the source's guard `command_buffer->arena.block_pool` requires and
creation always provides in this backend). -/
theorem C2_update_buffer_snapshot
    (cb : iree_hal_hip_stream_command_buffer_t) (mem : HostMem)
    (source_buffer source_offset : Nat) (target_buffer : iree_hal_buffer_t)
    (target_offset length : Nat)
    (h : cb.has_block_pool = true) :
    (iree_hal_hip_stream_command_buffer_update_buffer cb mem source_buffer
        source_offset target_buffer target_offset length).stream_ops =
      cb.stream_ops ++
        [.memcpyHtoD
          (target_buffer.device_base + target_buffer.byte_offset + target_offset)
          (.arenaBytes ((List.range length).map
            (fun i => mem (source_buffer + source_offset + i)))) length] ∧
    ∀ mem_at_execution : HostMem,
      transferredBytes mem_at_execution
        (.memcpyHtoD
          (target_buffer.device_base + target_buffer.byte_offset + target_offset)
          (.arenaBytes ((List.range length).map
            (fun i => mem (source_buffer + source_offset + i)))) length) =
      some ((List.range length).map
        (fun i => mem (source_buffer + source_offset + i))) := by
  unfold iree_hal_hip_stream_command_buffer_update_buffer
  rw [if_pos h]
  exact ⟨rfl, fun _ => rfl⟩

/-- Witness for claim C2 on a concrete three-byte update. -/
theorem C2_update_buffer_snapshot_witness :
    (iree_hal_hip_stream_command_buffer_update_buffer emptyStreamCommandBuffer
        (fun a => a % 10) 100 2 { device_base := 200, byte_offset := 0 } 0 3).stream_ops =
      [.memcpyHtoD 200 (.arenaBytes [2, 3, 4]) 3] ∧
    transferredBytes (fun _ => 9)
      (.memcpyHtoD 200 (.arenaBytes [2, 3, 4]) 3) = some [2, 3, 4] := by
  have h := C2_update_buffer_snapshot emptyStreamCommandBuffer (fun a => a % 10)
    100 2 { device_base := 200, byte_offset := 0 } 0 3 rfl
  exact ⟨h.1, h.2 (fun _ => 9)⟩

/-- Claim C3: a push_descriptor_set call within the per-set maximum inserts
every non-null bound buffer into the resource set and stores its resolved
device address (buffer base + buffer byte offset + binding byte offset)
at the binding's index, stores a null address for a null buffer, and
leaves every index the call does not name unchanged. -/
theorem C3_push_descriptor_set_semantics
    (cb : iree_hal_hip_stream_command_buffer_t) (pipeline_layout set : Nat)
    (bindings : List iree_hal_descriptor_set_binding_t)
    (row : List (Option Nat))
    (hrow : cb.descriptor_sets[set]? = some row)
    (hcount : bindings.length ≤ IREE_HAL_HIP_MAX_DESCRIPTOR_SET_BINDING_COUNT)
    (hidx : ∀ b ∈ bindings, b.binding < row.length)
    (hnd : (bindings.map (fun b => b.binding)).Nodup) :
    iree_hal_hip_stream_command_buffer_push_descriptor_set cb pipeline_layout
        set bindings =
      some ({ cb with
              resource_set := retainBindings cb.resource_set bindings
              descriptor_sets :=
                cb.descriptor_sets.set set (applyBindings row bindings) },
        iree_status_t.ok) ∧
    (∀ b ∈ bindings, ∀ buf : iree_hal_buffer_t, b.buffer = some buf →
      HalResource.bufferResource buf ∈ retainBindings cb.resource_set bindings) ∧
    (∀ r ∈ cb.resource_set, r ∈ retainBindings cb.resource_set bindings) ∧
    (∀ b ∈ bindings, (applyBindings row bindings)[b.binding]? =
      some (resolveBinding b)) ∧
    (∀ j : Nat, j ∉ bindings.map (fun b => b.binding) →
      (applyBindings row bindings)[j]? = row[j]?) := by
  refine ⟨?_, fun b hb buf hbuf => retainBindings_mem_of_bound bindings _ b hb buf hbuf,
    fun r hr => retainBindings_mono bindings _ r hr,
    fun b hb => applyBindings_getElem_mem bindings row hnd hidx b hb,
    fun j hj => applyBindings_getElem_not_mem bindings row j hj⟩
  unfold iree_hal_hip_stream_command_buffer_push_descriptor_set
  rw [if_neg (by omega)]
  rw [hrow]
  dsimp only
  rw [pushBindingsLoop_spec bindings cb.resource_set row hidx]

/-- Witness for claim C3: one bound binding resolving to address 100 and one
null binding over the zero-initialized state. -/
theorem C3_push_descriptor_set_semantics_witness :
    iree_hal_hip_stream_command_buffer_push_descriptor_set
        emptyStreamCommandBuffer 0 0
        [⟨0, some ⟨96, 4⟩, 0, 16⟩, ⟨1, none, 8, 16⟩] =
      some ({ emptyStreamCommandBuffer with
              resource_set := retainBindings emptyStreamCommandBuffer.resource_set
                [⟨0, some ⟨96, 4⟩, 0, 16⟩, ⟨1, none, 8, 16⟩]
              descriptor_sets := emptyStreamCommandBuffer.descriptor_sets.set 0
                (applyBindings
                  (List.replicate IREE_HAL_HIP_MAX_DESCRIPTOR_SET_BINDING_COUNT none)
                  [⟨0, some ⟨96, 4⟩, 0, 16⟩, ⟨1, none, 8, 16⟩]) },
        iree_status_t.ok) ∧
    HalResource.bufferResource ⟨96, 4⟩ ∈
      retainBindings emptyStreamCommandBuffer.resource_set
        [⟨0, some ⟨96, 4⟩, 0, 16⟩, ⟨1, none, 8, 16⟩] ∧
    (applyBindings
        (List.replicate IREE_HAL_HIP_MAX_DESCRIPTOR_SET_BINDING_COUNT none)
        [⟨0, some ⟨96, 4⟩, 0, 16⟩, ⟨1, none, 8, 16⟩])[0]? = some (some 100) ∧
    (applyBindings
        (List.replicate IREE_HAL_HIP_MAX_DESCRIPTOR_SET_BINDING_COUNT none)
        [⟨0, some ⟨96, 4⟩, 0, 16⟩, ⟨1, none, 8, 16⟩])[1]? = some none ∧
    (applyBindings
        (List.replicate IREE_HAL_HIP_MAX_DESCRIPTOR_SET_BINDING_COUNT none)
        [⟨0, some ⟨96, 4⟩, 0, 16⟩, ⟨1, none, 8, 16⟩])[2]? =
      (List.replicate IREE_HAL_HIP_MAX_DESCRIPTOR_SET_BINDING_COUNT
        (none : Option Nat))[2]? := by
  have h := C3_push_descriptor_set_semantics emptyStreamCommandBuffer 0 0
    [⟨0, some ⟨96, 4⟩, 0, 16⟩, ⟨1, none, 8, 16⟩]
    (List.replicate IREE_HAL_HIP_MAX_DESCRIPTOR_SET_BINDING_COUNT none)
    (by decide) (by decide) (by decide) (by decide)
  refine ⟨h.1, h.2.1 ⟨0, some ⟨96, 4⟩, 0, 16⟩ (by decide) ⟨96, 4⟩ rfl, ?_, ?_, h.2.2.2.2 2 (by decide)⟩
  · have := h.2.2.2.1 ⟨0, some ⟨96, 4⟩, 0, 16⟩ (by decide)
    simpa [resolveBinding] using this
  · have := h.2.2.2.1 ⟨1, none, 8, 16⟩ (by decide)
    simpa [resolveBinding] using this

/-- Counterexample to claim C4 as stated: a pattern width of 0 is not "any
other pattern width yields an internal error" — the division
`length / pattern_length` executes before the width switch, so width 0
is division-by-zero undefined behaviour and the internal-error branch is
never reached. -/
theorem C4_fill_buffer_zero_width_counterexample :
    iree_hal_hip_stream_command_buffer_fill_buffer emptyStreamCommandBuffer
        { device_base := 96, byte_offset := 4 } 8 12 [7] 0 = none ∧
    iree_hal_hip_stream_command_buffer_fill_buffer emptyStreamCommandBuffer
        { device_base := 96, byte_offset := 4 } 8 12 [7] 0 ≠
      some (emptyStreamCommandBuffer,
        .internal_error "unsupported fill pattern length") :=
  ⟨rfl, fun h => Option.noConfusion h⟩

/-- Claim C4, amended: fill_buffer resolves the destination to buffer base +
buffer byte offset + call offset; a pattern width of exactly 4, 2 or 1
bytes emits one asynchronous fill of `length / width` elements of that
width on the stream; any other nonzero width returns an internal error;
a zero width is division-by-zero undefined behaviour (the division
precedes the switch). -/
theorem C4_fill_buffer_cases_amended
    (cb : iree_hal_hip_stream_command_buffer_t)
    (target_buffer : iree_hal_buffer_t) (target_offset length : Nat)
    (pattern : List Nat) (pattern_length : Nat) :
    (pattern_length = 4 →
      iree_hal_hip_stream_command_buffer_fill_buffer cb target_buffer
          target_offset length pattern pattern_length =
        some ({ cb with stream_ops := cb.stream_ops ++
            [.fill32 (target_buffer.device_base + target_buffer.byte_offset + target_offset)
              (patternByteAt pattern 0 + 256 * patternByteAt pattern 1 +
                65536 * patternByteAt pattern 2 + 16777216 * patternByteAt pattern 3)
              (length / 4)] }, .ok)) ∧
    (pattern_length = 2 →
      iree_hal_hip_stream_command_buffer_fill_buffer cb target_buffer
          target_offset length pattern pattern_length =
        some ({ cb with stream_ops := cb.stream_ops ++
            [.fill16 (target_buffer.device_base + target_buffer.byte_offset + target_offset)
              (patternByteAt pattern 0 + 256 * patternByteAt pattern 1)
              (length / 2)] }, .ok)) ∧
    (pattern_length = 1 →
      iree_hal_hip_stream_command_buffer_fill_buffer cb target_buffer
          target_offset length pattern pattern_length =
        some ({ cb with stream_ops := cb.stream_ops ++
            [.fill8 (target_buffer.device_base + target_buffer.byte_offset + target_offset)
              (patternByteAt pattern 0) (length / 1)] }, .ok)) ∧
    (pattern_length ≠ 0 ∧ pattern_length ≠ 1 ∧ pattern_length ≠ 2 ∧
        pattern_length ≠ 4 →
      iree_hal_hip_stream_command_buffer_fill_buffer cb target_buffer
          target_offset length pattern pattern_length =
        some (cb, .internal_error "unsupported fill pattern length")) ∧
    (pattern_length = 0 →
      iree_hal_hip_stream_command_buffer_fill_buffer cb target_buffer
          target_offset length pattern pattern_length = none) := by
  refine ⟨fun h => by subst h; rfl, fun h => by subst h; rfl,
    fun h => by subst h; rfl, fun h => ?_, fun h => by subst h; rfl⟩
  obtain ⟨h0, h1, h2, h4⟩ := h
  unfold iree_hal_hip_stream_command_buffer_fill_buffer
  rw [if_neg h0]
  split <;> simp_all

/-- Witness for the amended claim C4: a 2-byte fill, a rejected 3-byte
pattern, and the width-0 fault. -/
theorem C4_fill_buffer_cases_amended_witness :
    iree_hal_hip_stream_command_buffer_fill_buffer emptyStreamCommandBuffer
        { device_base := 96, byte_offset := 4 } 8 12 [7, 1] 2 =
      some ({ emptyStreamCommandBuffer with
          stream_ops := [.fill16 108 263 6] }, .ok) ∧
    iree_hal_hip_stream_command_buffer_fill_buffer emptyStreamCommandBuffer
        { device_base := 96, byte_offset := 4 } 8 12 [7, 1, 2] 3 =
      some (emptyStreamCommandBuffer,
        .internal_error "unsupported fill pattern length") ∧
    iree_hal_hip_stream_command_buffer_fill_buffer emptyStreamCommandBuffer
        { device_base := 96, byte_offset := 4 } 8 12 [7] 0 = none := by
  refine ⟨?_, ?_, ?_⟩
  · have h := (C4_fill_buffer_cases_amended emptyStreamCommandBuffer
      { device_base := 96, byte_offset := 4 } 8 12 [7, 1] 2).2.1 rfl
    simpa using h
  · exact (C4_fill_buffer_cases_amended emptyStreamCommandBuffer
      { device_base := 96, byte_offset := 4 } 8 12 [7, 1, 2] 3).2.2.2.1 (by decide)
  · exact (C4_fill_buffer_cases_amended emptyStreamCommandBuffer
      { device_base := 96, byte_offset := 4 } 8 12 [7] 0).2.2.2.2 rfl

/-- Claim C5: a push_descriptor_set call whose binding count exceeds the
fixed per-set maximum fails with a resource-exhaustion error naming the
requested and maximal counts, returned before any mutation, leaving the
whole command buffer state (the set's prior bindings included)
unchanged. -/
theorem C5_push_descriptor_set_overflow
    (cb : iree_hal_hip_stream_command_buffer_t) (pipeline_layout set : Nat)
    (bindings : List iree_hal_descriptor_set_binding_t)
    (h : bindings.length > IREE_HAL_HIP_MAX_DESCRIPTOR_SET_BINDING_COUNT) :
    iree_hal_hip_stream_command_buffer_push_descriptor_set cb pipeline_layout
        set bindings =
      some (cb, .resource_exhausted set bindings.length
        IREE_HAL_HIP_MAX_DESCRIPTOR_SET_BINDING_COUNT) := by
  unfold iree_hal_hip_stream_command_buffer_push_descriptor_set
  rw [if_pos h]

/-- Witness for claim C5 with 17 requested bindings against the maximum of
16. -/
theorem C5_push_descriptor_set_overflow_witness :
    iree_hal_hip_stream_command_buffer_push_descriptor_set
        emptyStreamCommandBuffer 0 2 (List.replicate 17 ⟨0, none, 0, 0⟩) =
      some (emptyStreamCommandBuffer, .resource_exhausted 2 17 16) :=
  C5_push_descriptor_set_overflow emptyStreamCommandBuffer 0 2
    (List.replicate 17 ⟨0, none, 0, 0⟩) (by decide)

/-- Claim C6: push_constants writes `byte_length / 4` words into the
word-addressed bank starting at index `byte_offset / 4`, overwriting the
prior values at those indices; writing the same word offset twice leaves
only the second value in the bank, and the next dispatch observes only
that second value in the payload slot at the layout's push-constant base
index plus the word offset. -/
theorem C6_push_constants_overwrite :
    (∀ (cb : iree_hal_hip_stream_command_buffer_t) (pipeline_layout offset : Nat)
      (values : List Nat),
      offset / 4 + values.length / 4 ≤ cb.push_constants.length →
      iree_hal_hip_stream_command_buffer_push_constants cb pipeline_layout offset
          values =
        some { cb with push_constants :=
          cb.push_constants.take (offset / 4) ++ bytesToWords values ++
            cb.push_constants.drop (offset / 4 + values.length / 4) } ∧
      (bytesToWords values).length = values.length / 4) ∧
    (∀ (cb : iree_hal_hip_stream_command_buffer_t)
      (pipeline_layout offset b0 b1 b2 b3 c0 c1 c2 c3 : Nat),
      offset / 4 + 1 ≤ cb.push_constants.length →
      (iree_hal_hip_stream_command_buffer_push_constants cb pipeline_layout offset
          [b0, b1, b2, b3]).bind
        (fun cb1 => iree_hal_hip_stream_command_buffer_push_constants cb1
          pipeline_layout offset [c0, c1, c2, c3]) =
        some { cb with push_constants :=
          cb.push_constants.take (offset / 4) ++ [word32OfBytes c0 c1 c2 c3] ++
            cb.push_constants.drop (offset / 4 + 1) } ∧
      (∀ executable fn shmem wx wy wz bx byy bz : Nat,
        iree_hal_hip_stream_command_buffer_dispatch
            { cb with push_constants :=
              cb.push_constants.take (offset / 4) ++ [word32OfBytes c0 c1 c2 c3] ++
                cb.push_constants.drop (offset / 4 + 1) }
            executable
            { function := fn, block_size := (bx, byy, bz),
              shared_memory_size := shmem,
              layout :=
                { set_layouts := [], push_constant_count := offset / 4 + 1 } }
            wx wy wz =
          some { cb with
            push_constants := cb.push_constants.take (offset / 4) ++
              [word32OfBytes c0 c1 c2 c3] ++
                cb.push_constants.drop (offset / 4 + 1)
            resource_set := iree_hal_resource_set_insert cb.resource_set
              (.executableResource executable)
            arena_allocs := cb.arena_allocs ++
              [(offset / 4 + 1) * hip_pointer_size * 2]
            stream_ops := cb.stream_ops ++
              [.launchKernel fn (wx, wy, wz) (bx, byy, bz) shmem
                { arg_ptrs := List.range (offset / 4 + 1)
                  payload := (((cb.push_constants.take (offset / 4) ++
                      [word32OfBytes c0 c1 c2 c3] ++
                      cb.push_constants.drop (offset / 4 + 1)).take
                        (offset / 4 + 1)).map KernelArgSlot.word32) }] }) ∧
      (((cb.push_constants.take (offset / 4) ++ [word32OfBytes c0 c1 c2 c3] ++
          cb.push_constants.drop (offset / 4 + 1)).take (offset / 4 + 1)).map
        KernelArgSlot.word32)[offset / 4]? =
        some (.word32 (word32OfBytes c0 c1 c2 c3))) := by
  constructor
  · intro cb pipeline_layout offset values h
    exact ⟨push_constants_spec cb pipeline_layout offset values h,
      bytesToWords_length values⟩
  · intro cb pipeline_layout offset b0 b1 b2 b3 c0 c1 c2 c3 hk
    have hA : (cb.push_constants.take (offset / 4)).length = offset / 4 :=
      List.length_take_of_le (by omega)
    have htake : ∀ w : Nat,
        (cb.push_constants.take (offset / 4) ++ [w] ++
          cb.push_constants.drop (offset / 4 + 1)).take (offset / 4 + 1) =
        cb.push_constants.take (offset / 4) ++ [w] := by
      intro w
      rw [List.append_assoc, ← List.append_assoc]
      exact List.take_left' (by simp [hA])
    have hdrop : ∀ w : Nat,
        (cb.push_constants.take (offset / 4) ++ [w] ++
          cb.push_constants.drop (offset / 4 + 1)).drop (offset / 4 + 1) =
        cb.push_constants.drop (offset / 4 + 1) := by
      intro w
      rw [List.append_assoc, ← List.append_assoc]
      exact List.drop_left' (by simp [hA])
    have htk : ∀ w : Nat,
        (cb.push_constants.take (offset / 4) ++ [w] ++
          cb.push_constants.drop (offset / 4 + 1)).take (offset / 4) =
        cb.push_constants.take (offset / 4) := by
      intro w
      rw [List.append_assoc]
      exact List.take_left' hA
    have hlen1 : ∀ w : Nat,
        (cb.push_constants.take (offset / 4) ++ [w] ++
          cb.push_constants.drop (offset / 4 + 1)).length =
        cb.push_constants.length := by
      intro w
      simp [hA]
      omega
    refine ⟨?_, ?_, ?_⟩
    · rw [push_constants_spec cb pipeline_layout offset [b0, b1, b2, b3]
        (by simpa using hk)]
      rw [Option.some_bind]
      rw [push_constants_spec _ pipeline_layout offset [c0, c1, c2, c3]
        (by simp [bytesToWords_length]; omega)]
      have e1 : offset / 4 + ([b0, b1, b2, b3] : List Nat).length / 4 =
          offset / 4 + 1 := by norm_num
      have e2 : offset / 4 + ([c0, c1, c2, c3] : List Nat).length / 4 =
          offset / 4 + 1 := by norm_num
      rw [e1, e2]
      rw [show bytesToWords [b0, b1, b2, b3] =
        [word32OfBytes b0 b1 b2 b3] from rfl]
      rw [htk, hdrop]
      rfl
    · intro executable fn shmem wx wy wz bx byy bz
      rw [dispatch_spec _ _ _ _ _ _ (by simp)
        (by intro p hp; simp at hp)
        (by show offset / 4 + 1 ≤ _; rw [hlen1]; omega)]
      simp [sumBindingCounts, flattenedBindings]
    · rw [htake, List.map_append,
        List.getElem?_append_right (by simp [hA])]
      simp [Nat.min_eq_left (show offset / 4 ≤ cb.push_constants.length from
        by omega)]

/-- Witness for claim C6: word 0 is written to 42 and then to 7, and the
next dispatch's payload slot holds 7. -/
theorem C6_push_constants_overwrite_witness :
    (iree_hal_hip_stream_command_buffer_push_constants emptyStreamCommandBuffer
        0 0 [42, 0, 0, 0]).bind
      (fun cb1 => iree_hal_hip_stream_command_buffer_push_constants cb1 0 0
        [7, 0, 0, 0]) =
      some { emptyStreamCommandBuffer with push_constants :=
        emptyStreamCommandBuffer.push_constants.take 0 ++
          [word32OfBytes 7 0 0 0] ++
          emptyStreamCommandBuffer.push_constants.drop 1 } ∧
    (((emptyStreamCommandBuffer.push_constants.take 0 ++
        [word32OfBytes 7 0 0 0] ++
        emptyStreamCommandBuffer.push_constants.drop 1).take 1).map
      KernelArgSlot.word32)[0]? =
      some (.word32 (word32OfBytes 7 0 0 0)) :=
  ⟨(C6_push_constants_overwrite.2 emptyStreamCommandBuffer 0 0 42 0 0 0 7 0 0 0
      (by decide)).1,
   (C6_push_constants_overwrite.2 emptyStreamCommandBuffer 0 0 42 0 0 0 7 0 0 0
      (by decide)).2.2⟩

/-- Claim C7: execution_barrier returns an error exactly when the source or
target stage mask includes the host stage or a non-default flag is set;
in every case (and in particular on success) it emits no stream
operation and leaves the command buffer unchanged. -/
theorem C7_execution_barrier_cases
    (cb : iree_hal_hip_stream_command_buffer_t)
    (source_stage_mask target_stage_mask flags mbc bbc : Nat) :
    (iree_hal_hip_stream_command_buffer_execution_barrier cb source_stage_mask
        target_stage_mask flags mbc bbc).1 = cb ∧
    ((iree_hal_hip_stream_command_buffer_execution_barrier cb source_stage_mask
        target_stage_mask flags mbc bbc).2 ≠ iree_status_t.ok ↔
      (iree_any_bit_set source_stage_mask IREE_HAL_EXECUTION_STAGE_HOST = true ∨
       iree_any_bit_set target_stage_mask IREE_HAL_EXECUTION_STAGE_HOST = true ∨
       flags ≠ IREE_HAL_EXECUTION_BARRIER_FLAG_NONE)) := by
  unfold iree_hal_hip_stream_command_buffer_execution_barrier
  by_cases h1 : iree_any_bit_set source_stage_mask IREE_HAL_EXECUTION_STAGE_HOST = true
  · simp [h1]
  · by_cases h2 : iree_any_bit_set target_stage_mask IREE_HAL_EXECUTION_STAGE_HOST = true
    · simp [h1, h2]
    · by_cases h3 : flags = IREE_HAL_EXECUTION_BARRIER_FLAG_NONE
      · simp [h1, h2, h3]
      · simp [h1, h2, h3]

/-- Claim C8: creation with a positive binding capacity returns an
unimplemented error before allocating anything, and the out pointer is
left null. -/
theorem C8_create_rejects_binding_capacity (mode command_categories
    binding_capacity : Nat) (has_block_pool : Bool)
    (h : binding_capacity > 0) :
    iree_hal_hip_stream_command_buffer_create mode command_categories
        binding_capacity has_block_pool =
      (none, .unimplemented "indirect command buffers not yet implemented") := by
  unfold iree_hal_hip_stream_command_buffer_create
  rw [if_pos h]

/-- Witness for claim C8 at binding capacity 1. -/
theorem C8_create_rejects_binding_capacity_witness :
    iree_hal_hip_stream_command_buffer_create 0 0 1 true =
      (none, .unimplemented "indirect command buffers not yet implemented") :=
  C8_create_rejects_binding_capacity 0 0 1 true (by decide)

/-- Claim C9: dispatch_indirect, execute_commands, collective, signal_event,
reset_event and wait_events each fail immediately as unimplemented on
every input, with no stream operation, no state change and no resource
retention. -/
theorem C9_unimplemented_stubs :
    (∀ cb event mask, iree_hal_hip_stream_command_buffer_signal_event cb event mask =
      (cb, .unimplemented "event not yet supported")) ∧
    (∀ cb event mask, iree_hal_hip_stream_command_buffer_reset_event cb event mask =
      (cb, .unimplemented "event not yet supported")) ∧
    (∀ cb events smask tmask mbc bbc,
      iree_hal_hip_stream_command_buffer_wait_events cb events smask tmask mbc bbc =
      (cb, .unimplemented "event not yet supported")) ∧
    (∀ cb channel op param send recv count,
      iree_hal_hip_stream_command_buffer_collective cb channel op param send recv count =
      (cb, .unimplemented "collectives not yet supported")) ∧
    (∀ cb executable entry_point wb wo,
      iree_hal_hip_stream_command_buffer_dispatch_indirect cb executable entry_point wb wo =
      (cb, .unimplemented "need hip implementation of dispatch indirect")) ∧
    (∀ cb commands binding_table,
      iree_hal_hip_stream_command_buffer_execute_commands cb commands binding_table =
      (cb, .unimplemented "indirect command buffers not yet implemented")) :=
  ⟨fun _ _ _ => rfl, fun _ _ _ => rfl, fun _ _ _ _ _ _ => rfl,
   fun _ _ _ _ _ _ _ => rfl, fun _ _ _ _ _ => rfl, fun _ _ _ => rfl⟩

/-- Claim C10: push_descriptor_set performs no bound check on the set index:
over well-formed states it is total once the set index is below the fixed
maximal set count (and the binding indices are in range), while a set
index at the maximum reaches the out-of-bounds set-array access even
though the binding-count check passes. -/
theorem C10_push_descriptor_set_bounds :
    (∀ (cb : iree_hal_hip_stream_command_buffer_t) (pipeline_layout set : Nat)
      (bindings : List iree_hal_descriptor_set_binding_t),
      cb.descriptor_sets.length = IREE_HAL_HIP_MAX_DESCRIPTOR_SET_COUNT →
      (∀ row ∈ cb.descriptor_sets,
        row.length = IREE_HAL_HIP_MAX_DESCRIPTOR_SET_BINDING_COUNT) →
      set < IREE_HAL_HIP_MAX_DESCRIPTOR_SET_COUNT →
      bindings.length ≤ IREE_HAL_HIP_MAX_DESCRIPTOR_SET_BINDING_COUNT →
      (∀ b ∈ bindings, b.binding < IREE_HAL_HIP_MAX_DESCRIPTOR_SET_BINDING_COUNT) →
      (iree_hal_hip_stream_command_buffer_push_descriptor_set cb pipeline_layout
        set bindings).isSome = true) ∧
    iree_hal_hip_stream_command_buffer_push_descriptor_set
      emptyStreamCommandBuffer 0 IREE_HAL_HIP_MAX_DESCRIPTOR_SET_COUNT
      [⟨0, none, 0, 0⟩] = none ∧
    (1 : Nat) ≤ IREE_HAL_HIP_MAX_DESCRIPTOR_SET_BINDING_COUNT := by
  refine ⟨?_, by decide, by decide⟩
  intro cb pipeline_layout set bindings hlen hrows hset hcount hidx
  have hsetlt : set < cb.descriptor_sets.length := by omega
  have hrow : cb.descriptor_sets[set]? = some cb.descriptor_sets[set] :=
    List.getElem?_eq_getElem hsetlt
  have hrl : cb.descriptor_sets[set].length =
      IREE_HAL_HIP_MAX_DESCRIPTOR_SET_BINDING_COUNT :=
    hrows _ (List.getElem_mem hsetlt)
  unfold iree_hal_hip_stream_command_buffer_push_descriptor_set
  rw [if_neg (by omega), hrow]
  dsimp only
  rw [pushBindingsLoop_spec bindings cb.resource_set _
    (fun b hb => by rw [hrl]; exact hidx b hb)]
  rfl

/-- Witness for claim C10: set index 0 succeeds, set index 4 faults. -/
theorem C10_push_descriptor_set_bounds_witness :
    (iree_hal_hip_stream_command_buffer_push_descriptor_set
      emptyStreamCommandBuffer 0 0 [⟨0, none, 0, 0⟩]).isSome = true ∧
    iree_hal_hip_stream_command_buffer_push_descriptor_set
      emptyStreamCommandBuffer 0 IREE_HAL_HIP_MAX_DESCRIPTOR_SET_COUNT
      [⟨0, none, 0, 0⟩] = none :=
  ⟨C10_push_descriptor_set_bounds.1 emptyStreamCommandBuffer 0 0
      [⟨0, none, 0, 0⟩] (by decide) (by decide) (by decide) (by decide) (by decide),
    C10_push_descriptor_set_bounds.2.1⟩
